import Mathlib

/-!
Verification development for the online-engine search processor
(`searx/search/processors/online.py`) and the tracker-URL-remover plugin
(`searx/plugins/tracker_url_remover.py`).

The Python code is embedded shallowly: request parameters become a Lean
structure mirroring `OnlineParams`, the HTTP transport and the engine
adapter become explicit oracle functions, exceptions become an `Except`
value over a closed taxonomy matching the `except` clauses of
`OnlineProcessor.search`, and the side effects the code performs
(`count_error` incidents, nested enrichment searches, container
extension, `handle_exception` records) are made explicit as data returned
by the embedded functions.
-/

namespace OnlineSearch

/-- HTTP method of a request, source field `HTTPParams.method`
(`Literal["GET", "POST"]`). -/
inductive Method : Type where
  | GET : Method
  | POST : Method
deriving DecidableEq, Repr

/-- The `verify` override of `HTTPParams`: Python `None | Literal[False] | str`.
`Option VerifyVal` stands for the whole field, `none` being Python `None`. -/
inductive VerifyVal : Type where
  | off : VerifyVal
  | cert : String → VerifyVal
deriving DecidableEq, Repr

/-- The full request-parameter record of an `online` engine, source
`OnlineParams = HTTPParams + RequestParams`.  The `TypedDict` has no
`NotRequired` keys and every instance reaching `_send_http_request` is
built by `get_params` on top of `default_request_params()`, so all keys
are present; `query` and `category` come from the abstract
`RequestParams` part (they are read as `params["query"]` and
`params["category"]` in `_add_forced_sitelinks`). -/
structure OnlineParams : Type where
  method : Method
  headers : List (String × String)
  data : List (String × String)
  json : List (String × String)
  content : List Nat
  url : String
  cookies : List (String × String)
  allow_redirects : Bool
  max_redirects : Nat
  soft_max_redirects : Nat
  verify : Option VerifyVal
  auth : Option String
  raise_for_httperror : Bool
  query : String
  category : String
deriving DecidableEq, Repr

/-- Source `default_request_params()`: the fixed default record.  The
abstract `RequestParams` part contributes `query` and `category`, taken
here as arguments since `default_request_params` itself only fills the
HTTP keys. -/
def default_request_params (query category : String) : OnlineParams :=
  { method := .GET
    headers := []
    data := []
    json := []
    content := []
    url := ""
    cookies := []
    allow_redirects := false
    max_redirects := 0
    soft_max_redirects := 0
    verify := none
    auth := none
    raise_for_httperror := true
    query := query
    category := category }

/-- The keyword arguments handed to the transport (`searx.network.get` /
`searx.network.post`); a field holding `none` means the keyword is not in
the `request_args` dictionary at all, so the transport default applies. -/
structure RequestArgs : Type where
  headers : Option (List (String × String)) := none
  cookies : Option (List (String × String)) := none
  auth : Option (Option String) := none
  verify : Option VerifyVal := none
  max_redirects : Option Nat := none
  allow_redirects : Option Bool := none
  raise_for_httperror : Option Bool := none
  data : Option (List (String × String)) := none
  json : Option (List (String × String)) := none
  content : Option (List Nat) := none
deriving DecidableEq, Repr

/-- The `request_args` dictionary built by
`OnlineProcessor._send_http_request` before the transport call:
`headers`, `cookies` and `auth` are put in unconditionally; `verify`
only when not `None`; `max_redirects` only when truthy (non-zero);
`allow_redirects` when the key is in `params` (always, since
`OnlineParams` has no optional keys); `raise_for_httperror` always; for
`POST`, each of `data`, `json` and `content` is attached whenever it is
non-empty (three independent `if` statements). -/
def requestArgs (params : OnlineParams) : RequestArgs :=
  let args : RequestArgs :=
    { headers := some params.headers
      cookies := some params.cookies
      auth := some params.auth }
  let args := match params.verify with
    | some v => { args with verify := some v }
    | none => args
  let args := if params.max_redirects ≠ 0 then
      { args with max_redirects := some params.max_redirects } else args
  let args := { args with allow_redirects := some params.allow_redirects }
  let args := { args with raise_for_httperror := some params.raise_for_httperror }
  match params.method with
  | .GET => args
  | .POST =>
    let args := if params.data ≠ [] then { args with data := some params.data } else args
    let args := if params.json ≠ [] then { args with json := some params.json } else args
    if params.content ≠ [] then { args with content := some params.content } else args

/-- Transport response (`httpx` response as used by the processor):
status code, reason phrase, host of the final URL, and the redirect
history of which only the length is inspected
(`len(response.history)`). -/
structure Response : Type where
  status_code : Nat
  reason_phrase : String
  urlHost : String
  history : List Unit
deriving DecidableEq, Repr

/-- The exception taxonomy matched by the `except` clauses of
`OnlineProcessor.search`: `ssl.SSLError`; `httpx.TimeoutException` /
`asyncio.TimeoutError`; `httpx.HTTPError` / `httpx.StreamError`;
`SearxEngineCaptchaException`; `SearxEngineTooManyRequestsException`;
`SearxEngineAccessDeniedException`; and anything else caught by the
broad `except Exception` — here split into the `TypeError`s the
processor itself can raise and a catch-all `other`. -/
inductive SearchExc : Type where
  | sslError : SearchExc
  | timeoutError : SearchExc
  | httpError : SearchExc
  | captcha : SearchExc
  | tooManyRequests : SearchExc
  | accessDenied : SearchExc
  | typeError : String → SearchExc
  | other : String → SearchExc
deriving DecidableEq, Repr

/-- An error record created through `count_error` (the
`searx.metrics.error_recorder` collaborator): engine name, message,
`(status_code, reason, hostname)` context and the `secondary` flag. -/
structure Incident : Type where
  engine : String
  message : String
  context : String × String × String
  secondary : Bool
deriving DecidableEq, Repr

/-- A nested enrichment search performed by `_get_sitelinks`: the query
text and the category it runs under. -/
structure NestedSearch : Type where
  query : String
  category : String
deriving DecidableEq, Repr

/-- A search result as handled by the processor: `_get_property(result,
"url")` and the `sitelinks` list attached by enrichment.  The type is
recursive because sitelinks are themselves results. -/
inductive SResult : Type where
  | mk : Option String → List SResult → SResult

/-- The `url` property of a result (`_get_property(result, "url")`). -/
def SResult.url : SResult → Option String
  | .mk u _ => u

/-- The `sitelinks` list of a result. -/
def SResult.sitelinks : SResult → List SResult
  | .mk _ s => s

/-- `result["sitelinks"] = links` — previous sitelinks are overwritten,
not merged. -/
def SResult.setSitelinks : SResult → List SResult → SResult
  | .mk u _, links => .mk u links

/-- The engine adapter (source `self.engine`): its name, the
`send_accept_language_header` option, and the two polymorphic operations
`request(query, params)` (returning the mutated params) and
`response(raw_response) -> results`. -/
structure Engine : Type where
  name : String
  send_accept_language_header : Bool
  request : String → OnlineParams → OnlineParams
  response : Response → List SResult

/-- The per-invocation environment: the engine adapter and the injected
transport capability (`searx.network.get` / `searx.network.post`),
taking the method, the URL and the keyword arguments and either
returning a response or raising. -/
structure Env : Type where
  engine : Engine
  transport : Method → String → RequestArgs → Except SearchExc Response

/-- `str(response.status_code or "")` — a zero (falsy) status code turns
into the empty string. -/
def statusCodeStr (n : Nat) : String :=
  if n = 0 then "" else toString n

/-- Source `OnlineProcessor._send_http_request`: builds `request_args`,
calls the transport, and if the redirect history is longer than
`soft_max_redirects` records one `count_error` incident with
`secondary=True` while still returning the response.  The returned pair
is (incidents recorded, response or exception). -/
def sendHttpRequest (env : Env) (params : OnlineParams) :
    List Incident × Except SearchExc Response :=
  let args := requestArgs params
  match env.transport params.method params.url args with
  | .error e => ([], .error e)
  | .ok response =>
    let soft := params.soft_max_redirects
    if soft < response.history.length then
      ([{ engine := env.engine.name
          message := toString response.history.length ++ " redirects, maximum: " ++ toString soft
          context := (statusCodeStr response.status_code, response.reason_phrase, response.urlHost)
          secondary := true }], .ok response)
    else
      ([], .ok response)

/-- Source `OnlineProcessor._search_basic`: lets the engine mutate the
params, returns `None` when the URL is left empty (dispatch skipped),
otherwise dispatches and parses.  `.ok none` is Python `None`, `.ok
(some rs)` a parsed result list. -/
def searchBasic (env : Env) (query : String) (params : OnlineParams) :
    List Incident × Except SearchExc (Option (List SResult)) :=
  let params := env.engine.request query params
  if params.url = "" then ([], .ok none)
  else
    match sendHttpRequest env params with
    | (incs, .error e) => (incs, .error e)
    | (incs, .ok response) => (incs, .ok (some (env.engine.response response)))

/-- The post-processing of the nested result list inside
`_get_sitelinks`: `if len(rs) > 0: del rs[0]`, then keep only results
whose `url` property is not `None`. -/
def sitelinkPostprocess (rs : List SResult) : List SResult :=
  let rs := if 0 < rs.length then rs.drop 1 else rs
  rs.filter (fun r => r.url.isSome)

/-- Source `OnlineProcessor._get_sitelinks`: copies the params, appends
the search term to the query, forces the category to `"sitelinks"`, runs
`_search_basic`, and post-processes.  When `_search_basic` returns
`None` (nested empty URL) the logging / `len()` calls raise a Python
`TypeError`.  Returns (incidents, nested searches performed, sitelink
list or exception). -/
def getSitelinks (env : Env) (params : OnlineParams) (searchTerm : String) :
    List Incident × List NestedSearch × Except SearchExc (List SResult) :=
  let sitelinkQuery := params.query ++ " " ++ searchTerm
  let sitelinkParams := { params with query := sitelinkQuery, category := "sitelinks" }
  let (incs, res) := searchBasic env sitelinkQuery sitelinkParams
  let nested : List NestedSearch := [{ query := sitelinkQuery, category := "sitelinks" }]
  match res with
  | .error e => (incs, nested, .error e)
  | .ok none => (incs, nested, .error (.typeError "object of type NoneType has no len"))
  | .ok (some rs) => (incs, nested, .ok (sitelinkPostprocess rs))

/-- A `force_sitelink_websites` entry: the search-term list and the URL
match test.  `urlMatches` stands for `re.match("(" + website_url_expression
+ ")", url)` — the regex engine is an external capability, and wrapping
the expression in a capturing group does not change which strings
match. -/
structure Site : Type where
  website_search_terms : List String
  urlMatches : String → Bool

/-- The `settings["search"]` keys read by the processor. -/
structure SitelinkCfg : Type where
  force_sitelinks_categories : List String
  force_sitelink_websites : List Site

/-- Python substring test `needle in hay`. -/
def strContains (hay needle : String) : Bool :=
  hay.toList.tails.any (fun t => needle.toList.isPrefixOf t)

/-- Replace the first result matching `p` by the same result with
`sitelinks := links` (the inner `for result in search_results` loop with
its `break`). -/
def enrichFirst (p : SResult → Bool) (links : List SResult) :
    List SResult → List SResult
  | [] => []
  | r :: rs => if p r then r.setSitelinks links :: rs else r :: enrichFirst p links rs

/-- The site loop of `OnlineProcessor._add_forced_sitelinks`, one
iteration per configured website, in order: skip when the current
category is not in `force_sitelinks_categories`; skip when the query
already contains one of the site's search terms; otherwise iterate the
result list (a Python `TypeError` when `search_results` is `None`), and
on the first result whose URL matches, run `_get_sitelinks` with
`website_search_terms[0]` (an `IndexError` when the term list is empty),
attach the sitelinks, and stop scanning this site. -/
def sitesLoop (cfg : SitelinkCfg) (env : Env) (params : OnlineParams) :
    List Site → Option (List SResult) →
    List Incident × List NestedSearch × Except SearchExc (Option (List SResult))
  | [], searchResults => ([], [], .ok searchResults)
  | site :: sites, searchResults =>
    if cfg.force_sitelinks_categories.contains params.category then
      if site.website_search_terms.any (fun term => strContains params.query term) then
        sitesLoop cfg env params sites searchResults
      else
        match searchResults with
        | none => ([], [], .error (.typeError "NoneType object is not iterable"))
        | some results =>
          let urlMatch := fun (r : SResult) => site.urlMatches (r.url.getD "")
          if results.any urlMatch then
            match site.website_search_terms.head? with
            | none => ([], [], .error (.typeError "list index out of range"))
            | some term0 =>
              let (incs, nested, links) := getSitelinks env params term0
              match links with
              | .error e => (incs, nested, .error e)
              | .ok links =>
                let results := enrichFirst urlMatch links results
                let (incs2, nested2, res2) := sitesLoop cfg env params sites (some results)
                (incs ++ incs2, nested ++ nested2, res2)
          else
            sitesLoop cfg env params sites (some results)
    else
      sitesLoop cfg env params sites searchResults

/-- Source `OnlineProcessor._add_forced_sitelinks`. -/
def addForcedSitelinks (cfg : SitelinkCfg) (env : Env)
    (searchResults : Option (List SResult)) (params : OnlineParams) :
    List Incident × List NestedSearch × Except SearchExc (Option (List SResult)) :=
  sitesLoop cfg env params cfg.force_sitelink_websites searchResults

/-- The body of the `try` block of `OnlineProcessor.search`: run
`_search_basic`, and when both `force_sitelinks_categories` and
`force_sitelink_websites` are non-empty, run `_add_forced_sitelinks`. -/
def tryBlock (cfg : SitelinkCfg) (env : Env) (query : String) (params : OnlineParams) :
    List Incident × List NestedSearch × Except SearchExc (Option (List SResult)) :=
  match searchBasic env query params with
  | (incs, .error e) => (incs, [], .error e)
  | (incs, .ok searchResults) =>
    if 0 < cfg.force_sitelinks_categories.length ∧ 0 < cfg.force_sitelink_websites.length then
      let (incs2, nested, res) := addForcedSitelinks cfg env searchResults params
      (incs ++ incs2, nested, res)
    else
      (incs, [], .ok searchResults)

/-- Which `except` clause of `OnlineProcessor.search` handles each
exception, and the `suspend` argument it passes to `handle_exception`
(`suspend=True` for ssl / timeout / httpx / engine-semantic exceptions,
the default `False` for the broad `except Exception`). -/
def classifySuspend : SearchExc → Bool
  | .sslError => true
  | .timeoutError => true
  | .httpError => true
  | .captcha => true
  | .tooManyRequests => true
  | .accessDenied => true
  | .typeError _ => false
  | .other _ => false

/-- Outcome of one whole `OnlineProcessor.search` invocation.
`container` is `some rs` when `extend_container` was reached with
result value `rs`; `handled` is `some (e, suspend)` when an `except`
clause called `handle_exception`. -/
structure SearchOutcome : Type where
  incidents : List Incident
  nested : List NestedSearch
  container : Option (Option (List SResult))
  handled : Option (SearchExc × Bool)

/-- Source `OnlineProcessor.search`: the `try` block followed by the
`except` chain.  `extend_container` and `handle_exception` live in the
abstract base processor (not part of this repository slice); modelled
from the spec: `extend_container` merges the produced results into the
container exactly once, and `handle_exception` records exactly one
incident together with the suspend flag — here both are represented by
the corresponding `SearchOutcome` fields. -/
def searchRun (cfg : SitelinkCfg) (env : Env) (query : String) (params : OnlineParams) :
    SearchOutcome :=
  match tryBlock cfg env query params with
  | (incs, nested, .ok rs) =>
    { incidents := incs, nested := nested, container := some rs, handled := none }
  | (incs, nested, .error e) =>
    { incidents := incs, nested := nested, container := none
      handled := some (e, classifySuspend e) }

/-- The locale carried by a `SearchQuery` (a `babel.Locale`): a language
tag and an optional territory.  Python truthiness of the territory means
"not `None` and not the empty string". -/
structure QueryLocale : Type where
  language : String
  territory : Option String
deriving DecidableEq, Repr

/-- The part of `SearchQuery` read by `get_params`: the locale, `none`
standing for a falsy (absent) locale. -/
structure SearchQuery : Type where
  locale : Option QueryLocale
deriving DecidableEq, Repr

/-- Modelled from the spec: the abstract `EngineProcessor.get_params`
(base class, outside this repository slice) returns `None` when the
search condition is unsupported and otherwise the engine/category base
parameters that are overlaid on the defaults; per spec section 4.1 these
carry the query/category-derived values, with no HTTP keys of their
own. -/
structure BaseParams : Type where
  query : String
  category : String
deriving DecidableEq, Repr

/-- Python dict assignment `headers[k] = v`: overwrite the existing
entry, or append a new one. -/
def headerSet (hs : List (String × String)) (k v : String) : List (String × String) :=
  if hs.any (fun p => p.1 = k) then
    hs.map (fun p => if p.1 = k then (k, v) else p)
  else hs ++ [(k, v)]

/-- Python dict lookup `headers.get(k)`. -/
def headerGet (hs : List (String × String)) (k : String) : Option String :=
  (hs.find? (fun p => p.1 = k)).map (fun p => p.2)

/-- The `Accept-Language` value computed by `get_params`: the plain
language tag, replaced by the two-tier preference string when the
territory is truthy. -/
def acceptLanguageValue (loc : QueryLocale) : String :=
  match loc.territory with
  | some terr =>
    if terr = "" then loc.language
    else loc.language ++ "-" ++ terr ++ "," ++ loc.language ++ ";q=0.9,*;q=0.5"
  | none => loc.language

/-- Source `OnlineProcessor.get_params`: `None` propagates; otherwise
the defaults are overlaid with the base parameters, a generated
`User-Agent` header is set (`gen_useragent()` is an external capability,
its value is the `ua` argument), and when the engine opts in and the
query has a truthy locale, `Accept-Language` is set. -/
def getParams (eng : Engine) (ua : String) (sq : SearchQuery)
    (base : Option BaseParams) : Option OnlineParams :=
  match base with
  | none => none
  | some b =>
    let params := default_request_params b.query b.category
    let hs := headerSet params.headers "User-Agent" ua
    let hs := match sq.locale with
      | some loc =>
        if eng.send_accept_language_header then
          headerSet hs "Accept-Language" (acceptLanguageValue loc)
        else hs
      | none => hs
    some { params with headers := hs }

end OnlineSearch

namespace TrackerPlugin

/-- UTF-8 encoding of one character (the byte expansion `quote` applies
to non-safe characters). -/
def utf8Bytes (c : Char) : List Nat :=
  let n := c.toNat
  if n < 0x80 then [n]
  else if n < 0x800 then [0xC0 + n / 0x40, 0x80 + n % 0x40]
  else if n < 0x10000 then [0xE0 + n / 0x1000, 0x80 + n / 0x40 % 0x40, 0x80 + n % 0x40]
  else [0xF0 + n / 0x40000, 0x80 + n / 0x1000 % 0x40, 0x80 + n / 0x40 % 0x40, 0x80 + n % 0x40]

/-- The Unicode replacement character used by decoding with
`errors="replace"`. -/
def replChar : Char := Char.ofNat 0xFFFD

/-- Lower bound of the second byte of a three-byte UTF-8 sequence. -/
def cont2Lo (b : Nat) : Nat := if b = 0xE0 then 0xA0 else 0x80

/-- Upper bound of the second byte of a three-byte UTF-8 sequence
(excludes surrogates). -/
def cont2Hi (b : Nat) : Nat := if b = 0xED then 0x9F else 0xBF

/-- Lower bound of the second byte of a four-byte UTF-8 sequence. -/
def cont3Lo (b : Nat) : Nat := if b = 0xF0 then 0x90 else 0x80

/-- Upper bound of the second byte of a four-byte UTF-8 sequence
(keeps code points below 0x110000). -/
def cont3Hi (b : Nat) : Nat := if b = 0xF4 then 0x8F else 0xBF

/-- Strict UTF-8 decoding of a byte sequence with replacement on error
(the `errors="replace"` mode `unquote` uses); an invalid lead or
continuation byte yields one replacement character and decoding resumes
after the offending lead byte.  The fuel argument (instantiated with the
length of the byte list, which bounds the number of decoding steps) only
drives the structural recursion. -/
def utf8DecodeLoop : Nat → List Nat → List Char
  | 0, _ => []
  | _ + 1, [] => []
  | fuel + 1, b :: rest =>
    if b < 0x80 then Char.ofNat b :: utf8DecodeLoop fuel rest
    else if 0xC2 ≤ b ∧ b ≤ 0xDF then
      match rest with
      | b2 :: rest2 =>
        if 0x80 ≤ b2 ∧ b2 ≤ 0xBF then
          Char.ofNat ((b - 0xC0) * 0x40 + (b2 - 0x80)) :: utf8DecodeLoop fuel rest2
        else replChar :: utf8DecodeLoop fuel rest
      | [] => [replChar]
    else if 0xE0 ≤ b ∧ b ≤ 0xEF then
      match rest with
      | b2 :: b3 :: rest3 =>
        if cont2Lo b ≤ b2 ∧ b2 ≤ cont2Hi b ∧ 0x80 ≤ b3 ∧ b3 ≤ 0xBF then
          Char.ofNat ((b - 0xE0) * 0x1000 + (b2 - 0x80) * 0x40 + (b3 - 0x80)) ::
            utf8DecodeLoop fuel rest3
        else replChar :: utf8DecodeLoop fuel rest
      | _ => replChar :: utf8DecodeLoop fuel rest
    else if 0xF0 ≤ b ∧ b ≤ 0xF4 then
      match rest with
      | b2 :: b3 :: b4 :: rest4 =>
        if cont3Lo b ≤ b2 ∧ b2 ≤ cont3Hi b ∧ 0x80 ≤ b3 ∧ b3 ≤ 0xBF ∧ 0x80 ≤ b4 ∧ b4 ≤ 0xBF then
          Char.ofNat
              ((b - 0xF0) * 0x40000 + (b2 - 0x80) * 0x1000 + (b3 - 0x80) * 0x40 + (b4 - 0x80)) ::
            utf8DecodeLoop fuel rest4
        else replChar :: utf8DecodeLoop fuel rest
      | _ => replChar :: utf8DecodeLoop fuel rest
    else replChar :: utf8DecodeLoop fuel rest

/-- UTF-8 decoding with replacement, at full fuel. -/
def utf8DecodeReplace (bs : List Nat) : List Char :=
  utf8DecodeLoop bs.length bs

/-- Value of one hexadecimal digit, both cases accepted (as
`string.hexdigits` in `unquote`). -/
def hexVal (c : Char) : Option Nat :=
  if '0' ≤ c ∧ c ≤ '9' then some (c.toNat - '0'.toNat)
  else if 'a' ≤ c ∧ c ≤ 'f' then some (c.toNat - 'a'.toNat + 10)
  else if 'A' ≤ c ∧ c ≤ 'F' then some (c.toNat - 'A'.toNat + 10)
  else none

/-- Scanner of `urllib.parse.unquote`: maximal runs of `%XX` escapes
accumulate into a byte buffer (in `acc`, reversed) that is UTF-8 decoded
with replacement when a literal character or the end of the string is
reached; a `%` not followed by two hex digits stays literal.  The fuel
argument (instantiated with the length of the character list, each step
consuming at least one character) only drives the structural
recursion. -/
def unquoteLoop : Nat → List Char → List Nat → List Char
  | 0, _, acc => utf8DecodeReplace acc.reverse
  | _ + 1, [], acc => utf8DecodeReplace acc.reverse
  | fuel + 1, '%' :: h1 :: h2 :: rest, acc =>
    match hexVal h1, hexVal h2 with
    | some a, some b => unquoteLoop fuel rest ((a * 16 + b) :: acc)
    | _, _ => utf8DecodeReplace acc.reverse ++ '%' :: unquoteLoop fuel (h1 :: h2 :: rest) []
  | fuel + 1, c :: rest, acc => utf8DecodeReplace acc.reverse ++ c :: unquoteLoop fuel rest []

/-- `urllib.parse.unquote` on a string without encoding overrides. -/
def unquote (cs : List Char) : List Char :=
  unquoteLoop cs.length cs []

/-- Python `s.replace("+", " ")`, applied by `parse_qsl` to each name
and value before unquoting. -/
def plusToSpace (cs : List Char) : List Char :=
  cs.map (fun c => if c = '+' then ' ' else c)

/-- Split a query segment at its first `=` (Python
`name_value.split("=", 1)`); `none` when there is no `=`. -/
def splitEq : List Char → Option (List Char × List Char)
  | [] => none
  | c :: cs =>
    if c = '=' then some ([], cs)
    else match splitEq cs with
      | some (a, b) => some (c :: a, b)
      | none => none

/-- Split a character list at every `&` (Python `qs.split("&")`,
splitting on the default `parse_qsl` separator). -/
def splitOnAmp : List Char → List (List Char)
  | [] => [[]]
  | c :: cs =>
    if c = '&' then [] :: splitOnAmp cs
    else
      match splitOnAmp cs with
      | [] => [[c]]
      | seg :: rest => (c :: seg) :: rest

/-- `urllib.parse.parse_qsl` with its defaults (`keep_blank_values=False`,
`strict_parsing=False`, separator `&`): split on `&`, skip empty
segments, skip segments without `=` and segments with an empty value,
and plus/percent-decode each name and value. -/
def parseQsl (qs : String) : List (String × String) :=
  (splitOnAmp qs.toList).foldr
    (fun seg acc =>
      if seg = [] then acc
      else
        match splitEq seg with
        | none => acc
        | some (n, v) =>
          if v = [] then acc
          else (String.mk (unquote (plusToSpace n)), String.mk (unquote (plusToSpace v))) :: acc)
    []

/-- The characters `quote` never escapes: ASCII letters, digits and
`_.-~` (with the empty `safe` argument `quote_plus` passes). -/
def alwaysSafe (c : Char) : Bool :=
  decide (('A' ≤ c ∧ c ≤ 'Z') ∨ ('a' ≤ c ∧ c ≤ 'z') ∨ ('0' ≤ c ∧ c ≤ '9') ∨
    c = '_' ∨ c = '.' ∨ c = '-' ∨ c = '~')

/-- Upper-case hexadecimal digit. -/
def hexUpper (n : Nat) : Char :=
  if n < 10 then Char.ofNat (48 + n) else Char.ofNat (65 + n - 10)

/-- A percent escape `%XX` for one byte. -/
def pctEncodeByte (b : Nat) : List Char :=
  ['%', hexUpper (b / 16), hexUpper (b % 16)]

/-- `urllib.parse.quote_plus` with empty `safe`: safe characters stay,
a space becomes `+`, every other character is percent-escaped byte by
byte. -/
def quotePlus (s : String) : String :=
  String.mk
    (s.toList.foldr
      (fun c acc =>
        if alwaysSafe c then c :: acc
        else if c = ' ' then '+' :: acc
        else (utf8Bytes c).foldr (fun b acc2 => pctEncodeByte b ++ acc2) acc)
      [])

/-- `urllib.parse.urlencode` with `doseq=False` and the default
`quote_via=quote_plus`. -/
def urlencode (pairs : List (String × String)) : String :=
  String.intercalate "&" (pairs.map (fun p => quotePlus p.1 ++ "=" ++ quotePlus p.2))

/-- `urllib.parse.ParseResult`: the six components of a parsed URL. -/
structure ParseResult : Type where
  scheme : String
  netloc : String
  path : String
  params : String
  query : String
  fragment : String
deriving DecidableEq, Repr

/-- Whether a string starts with `//` (the `url[:2] == "//"` test of
`urlunsplit`). -/
def startsDoubleSlash (s : String) : Bool :=
  match s.toList with
  | '/' :: '/' :: _ => true
  | _ => false

/-- Whether a string starts with `/` (the `url[:1] == "/"` test of
`urlunsplit`). -/
def startsSlash (s : String) : Bool :=
  match s.toList with
  | '/' :: _ => true
  | _ => false

/-- `urllib.parse.urlunparse` (via `urlunsplit`). -/
def urlunparse (u : ParseResult) : String :=
  let url := if u.params ≠ "" then u.path ++ ";" ++ u.params else u.path
  let url :=
    if u.netloc ≠ "" ∨ (url ≠ "" ∧ startsDoubleSlash url = true) then
      "//" ++ u.netloc ++ (if url ≠ "" ∧ startsSlash url = false then "/" ++ url else url)
    else url
  let url := if u.scheme ≠ "" then u.scheme ++ ":" ++ url else url
  let url := if u.query ≠ "" then url ++ "?" ++ u.query else url
  if u.fragment ≠ "" then url ++ "#" ++ u.fragment else url

/-- `re.match(r"utm_[^&]+", name)`: the prefix `utm_` followed by at
least one character other than `&`. -/
def matchUtm : List Char → Bool
  | 'u' :: 't' :: 'm' :: '_' :: c :: _ => c != '&'
  | _ => false

/-- Whether a query-parameter name is matched (with `re.match`, anchored
at the start only) by one of the tracker patterns of the module-level
`regexes` set.  The set's iteration order is irrelevant because every
pattern triggers the same removal.  The patterns: `utm_[^&]+`,
`(wkey|wemail)[^&]*`, `(_hsenc|_hsmi|hsCtaTracking|__hssc|__hstc|__hsfp)[^&]*`,
`(tl)[^&]*`, and `&$` (which, `$` also matching before a final newline,
accepts exactly the names `&` and `&` + newline). -/
def matchesTracker (name : String) : Bool :=
  let cs := name.toList
  matchUtm cs ||
  "wkey".toList.isPrefixOf cs || "wemail".toList.isPrefixOf cs ||
  "_hsenc".toList.isPrefixOf cs || "_hsmi".toList.isPrefixOf cs ||
  "hsCtaTracking".toList.isPrefixOf cs || "__hssc".toList.isPrefixOf cs ||
  "__hstc".toList.isPrefixOf cs || "__hsfp".toList.isPrefixOf cs ||
  "tl".toList.isPrefixOf cs ||
  cs == ['&'] || cs == ['&', '\n']

/-- A result as seen by the plugin: `url`, `parsed_url` and
`sitelinks` (themselves results). -/
inductive TResult : Type where
  | mk : Option String → Option ParseResult → List TResult → TResult

/-- The `url` field of a plugin result. -/
def TResult.url : TResult → Option String
  | .mk u _ _ => u

/-- The `parsed_url` field of a plugin result. -/
def TResult.parsed_url : TResult → Option ParseResult
  | .mk _ p _ => p

/-- The `sitelinks` field of a plugin result. -/
def TResult.sitelinks : TResult → List TResult
  | .mk _ _ s => s

/-- The loop of `_clear_trackers`: iterate over a snapshot
(`list(parsed_query)`) of the parsed query; on each name matched by a
tracker pattern, remove the first equal pair from the live list
(`parsed_query.remove(name_value)`) and rewrite `parsed_url` and `url`
from the current live list.  Returns the final `parsed_url` and
`url`. -/
def clearLoop : List (String × String) → List (String × String) → ParseResult → Option String →
    ParseResult × Option String
  | [], _, pu, url => (pu, url)
  | nv :: rest, cur, pu, url =>
    if matchesTracker nv.1 then
      let cur2 := cur.erase nv
      let pu2 := { pu with query := urlencode cur2 }
      clearLoop rest cur2 pu2 (some (urlunparse pu2))
    else clearLoop rest cur pu url

/-- Source `_clear_trackers`: a result with no `parsed_url` is returned
untouched; otherwise its query string is parsed with `parse_qsl` and
the removal loop runs. -/
def clearTrackers (r : TResult) : TResult :=
  match r.parsed_url with
  | none => r
  | some pu =>
    let pq := parseQsl pu.query
    let (pu2, url2) := clearLoop pq pq pu r.url
    TResult.mk url2 (some pu2) r.sitelinks

/-- Source `SXNGPlugin.on_result`: clear trackers from each sitelink
when there are any, then from the result itself, and return `True`
(`result.sitelinks or []` collapses a missing list to the empty
one). -/
def on_result (r : TResult) : TResult × Bool :=
  let r :=
    if 0 < r.sitelinks.length then
      TResult.mk r.url r.parsed_url (r.sitelinks.map clearTrackers)
    else r
  (clearTrackers r, true)

end TrackerPlugin

namespace OnlineSearch

/-! Concrete engines, transports and configurations used to instantiate
the theorems below. -/

/-- A 200 response with no redirect history. -/
def plainResponse : Response :=
  { status_code := 200, reason_phrase := "OK", urlHost := "store.example.com", history := [] }

/-- A 200 response whose redirect history has one entry. -/
def redirectedResponse : Response :=
  { status_code := 200, reason_phrase := "OK", urlHost := "example.com", history := [()] }

/-- An engine whose request mutator sets a fixed URL and whose parser
returns one result on the store site. -/
def storeEngine : Engine :=
  { name := "e"
    send_accept_language_header := false
    request := fun _ p => { p with url := "https://store.example.com/search" }
    response := fun _ => [.mk (some "https://store.example.com/item/1") []] }

/-- An engine whose request mutator leaves the URL empty. -/
def noUrlEngine : Engine :=
  { name := "e"
    send_accept_language_header := false
    request := fun _ p => p
    response := fun _ => [] }

/-- An engine opting into the `Accept-Language` header. -/
def alEngine : Engine :=
  { name := "e"
    send_accept_language_header := true
    request := fun _ p => p
    response := fun _ => [] }

/-- Environment: store engine over a transport that always answers with
`plainResponse`. -/
def storeEnv : Env := { engine := storeEngine, transport := fun _ _ _ => .ok plainResponse }

/-- Environment: URL-less engine over a transport that would raise if it
were ever reached. -/
def noUrlEnv : Env :=
  { engine := noUrlEngine, transport := fun _ _ _ => .error (.other "transport called") }

/-- Environment whose transport raises a TLS error. -/
def sslEnv : Env := { engine := storeEngine, transport := fun _ _ _ => .error .sslError }

/-- Environment whose transport raises an exception outside the
classified taxonomy. -/
def unclassifiedEnv : Env :=
  { engine := storeEngine, transport := fun _ _ _ => .error (.other "boom") }

/-- Environment whose transport answers with the redirected response. -/
def softLimitEnv : Env :=
  { engine := storeEngine, transport := fun _ _ _ => .ok redirectedResponse }

/-- A site configuration whose URL expression matches every URL (such as
`.*`) and whose search terms are `["size"]`. -/
def sizeSite : Site := { website_search_terms := ["size"], urlMatches := fun _ => true }

/-- Settings that enable enrichment for the reserved `"sitelinks"`
category itself. -/
def sitelinksCategoryCfg : SitelinkCfg :=
  { force_sitelinks_categories := ["sitelinks"], force_sitelink_websites := [sizeSite] }

/-- Settings that enable enrichment for the `"general"` category. -/
def generalCategoryCfg : SitelinkCfg :=
  { force_sitelinks_categories := ["general"], force_sitelink_websites := [sizeSite] }

/-- Default params for query `"shoes"` in the `"sitelinks"` category. -/
def shoesSitelinksParams : OnlineParams := default_request_params "shoes" "sitelinks"

/-- Default params for query `"shoes"` in the `"general"` category. -/
def shoesGeneralParams : OnlineParams := default_request_params "shoes" "general"

/-- POST params with both form data and a JSON body non-empty. -/
def doubleBodyParams : OnlineParams :=
  { default_request_params "q" "general" with
      method := .POST
      url := "https://example.com"
      data := [("a", "1")]
      json := [("b", "2")] }

/-- GET params used for the soft-redirect-limit witness
(`soft_max_redirects = 0`). -/
def softLimitParams : OnlineParams :=
  { default_request_params "q" "general" with url := "https://example.com" }

/-- A query whose locale has language `fr` and territory `CA`. -/
def frCaQuery : SearchQuery := { locale := some { language := "fr", territory := some "CA" } }

/-- The params `get_params` produces for `frCaQuery` with `alEngine` and
user agent `"UA"`. -/
def frCaParams : OnlineParams :=
  { default_request_params "shoes" "general" with
      headers := [("User-Agent", "UA"), ("Accept-Language", "fr-CA,fr;q=0.9,*;q=0.5")] }

end OnlineSearch

namespace TrackerPlugin

/-- A parsed URL with one tracker parameter before an ordinary one. -/
def trackedPu : ParseResult :=
  { scheme := "https", netloc := "example.com", path := "/", params := ""
    query := "utm_a=1&b=2", fragment := "" }

/-- A result carrying `trackedPu`. -/
def trackedResult : TResult :=
  .mk (some "https://example.com/?utm_a=1&b=2") (some trackedPu) []

/-- A parsed URL whose query holds a blank-valued non-tracker parameter
next to a tracker parameter. -/
def blankParamPu : ParseResult :=
  { scheme := "https", netloc := "example.com", path := "/", params := ""
    query := "a=&utm_x=1", fragment := "" }

/-- A result carrying `blankParamPu`. -/
def blankParamResult : TResult :=
  .mk (some "https://example.com/?a=&utm_x=1") (some blankParamPu) []

end TrackerPlugin

open OnlineSearch TrackerPlugin

/-- C1: the claim says a search whose current category is `"sitelinks"`
never triggers a nested enrichment search, for every configuration — and
the code comment ("or it's a sitelinks query") documents the same
intent.  The code, however, only tests membership in
`force_sitelinks_categories`; when that list contains `"sitelinks"`, a
query already in the `"sitelinks"` category performs a nested search:
with `sitelinksCategoryCfg` and the `"shoes"` query in category
`"sitelinks"`, exactly one nested search for `"shoes size"` is fired. -/
theorem c1_sitelinks_category_still_triggers_nested_search :
    shoesSitelinksParams.category = "sitelinks" ∧
    (searchRun sitelinksCategoryCfg storeEnv "shoes" shoesSitelinksParams).nested =
      [{ query := "shoes size", category := "sitelinks" }] :=
  ⟨rfl, rfl⟩

/-- C2 counterexample: for POST params whose form data and JSON body are
both non-empty, `_send_http_request` attaches BOTH to the transport
request (the three body checks are independent `if` statements, not a
precedence chain), refuting "only the first non-empty one is attached;
the later ones are not sent". -/
theorem c2_multiple_bodies_all_attached :
    (requestArgs doubleBodyParams).data = some [("a", "1")] ∧
    (requestArgs doubleBodyParams).json = some [("b", "2")] :=
  ⟨rfl, rfl⟩

/-- C2 amended: for POST, each body variant (form data, JSON, raw
bytes) is attached to the transport request exactly when it is
non-empty — all non-empty variants are sent, not only the first in the
form-data > JSON > raw-bytes order; for GET no body is attached. -/
theorem c2_body_attached_iff_nonempty (p : OnlineParams) :
    (requestArgs p).data = (if p.method = .POST ∧ p.data ≠ [] then some p.data else none) ∧
    (requestArgs p).json = (if p.method = .POST ∧ p.json ≠ [] then some p.json else none) ∧
    (requestArgs p).content = (if p.method = .POST ∧ p.content ≠ [] then some p.content else none) := by
  obtain ⟨m, hs, d, j, co, u, ck, ar, mr, smr, v, au, rf, q, c⟩ := p
  cases m <;> cases v <;> simp only [requestArgs] <;> split_ifs <;> simp_all

/-- C3: the claim says an invocation whose `mutate_request` leaves the
URL empty yields zero results without recording any error incident.
When force-sitelinks is configured for the current category, however,
`_search_basic` returns `None`, `_add_forced_sitelinks` iterates over
`None` and raises a `TypeError`, which the broad `except Exception`
clause converts into a recorded incident (`suspend=False`), and
`extend_container` is never reached. -/
theorem c3_empty_url_enrichment_records_incident :
    (searchRun generalCategoryCfg noUrlEnv "shoes" shoesGeneralParams).handled =
      some (.typeError "NoneType object is not iterable", false) ∧
    (searchRun generalCategoryCfg noUrlEnv "shoes" shoesGeneralParams).container = none :=
  ⟨rfl, rfl⟩

/-- C4: when the transport answers with a response whose redirect
history is longer than `soft_max_redirects`, `_send_http_request`
records exactly one incident, tagged `secondary=true`, and still
returns the response for parsing — the soft-limit violation never
aborts the request. -/
theorem c4_soft_redirect_limit_incident (env : Env) (params : OnlineParams) (resp : Response)
    (ht : env.transport params.method params.url (requestArgs params) = .ok resp)
    (hr : params.soft_max_redirects < resp.history.length) :
    (sendHttpRequest env params).1.length = 1 ∧
    (∀ i ∈ (sendHttpRequest env params).1, i.secondary = true) ∧
    (sendHttpRequest env params).2 = .ok resp := by
  simp only [sendHttpRequest]
  rw [ht]
  simp [hr]

/-- Witness for C4 at a concrete input: one redirect against a soft
limit of zero. -/
theorem c4_soft_redirect_limit_incident_witness :
    (sendHttpRequest softLimitEnv softLimitParams).1.length = 1 ∧
    (∀ i ∈ (sendHttpRequest softLimitEnv softLimitParams).1, i.secondary = true) ∧
    (sendHttpRequest softLimitEnv softLimitParams).2 = .ok redirectedResponse :=
  c4_soft_redirect_limit_incident softLimitEnv softLimitParams redirectedResponse rfl (by decide)

/-- C5: whenever the `try` block of `search` raises, exactly one
incident is recorded through `handle_exception` together with the
suspend flag of the matching `except` clause: `suspend=true` for a TLS
(`ssl.SSLError`) failure, `suspend=false` for exceptions outside the
classified taxonomy (the broad `except Exception` clause), and the
exception never propagates past the invocation (`searchRun` is total
and every raised exception ends in the `handled` record). -/
theorem c5_exception_classified_once (cfg : SitelinkCfg) (env : Env) (query : String)
    (params : OnlineParams) (e : SearchExc)
    (h : (tryBlock cfg env query params).2.2 = .error e) :
    (searchRun cfg env query params).handled = some (e, classifySuspend e) ∧
    classifySuspend .sslError = true ∧
    (∀ s, classifySuspend (.other s) = false) ∧
    (∀ s, classifySuspend (.typeError s) = false) := by
  refine ⟨?_, rfl, fun _ => rfl, fun _ => rfl⟩
  rcases htb : tryBlock cfg env query params with ⟨incs, nested, res⟩
  rw [htb] at h
  cases res with
  | ok rs => simp at h
  | error e2 =>
    simp only at h
    cases h
    simp [searchRun, htb]

/-- Witness for C5 at concrete inputs: a transport raising a TLS error
and a transport raising an unclassified exception. -/
theorem c5_exception_classified_once_witness :
    (searchRun generalCategoryCfg sslEnv "q" shoesGeneralParams).handled =
      some (.sslError, true) ∧
    (searchRun generalCategoryCfg unclassifiedEnv "q" shoesGeneralParams).handled =
      some (.other "boom", false) :=
  ⟨(c5_exception_classified_once generalCategoryCfg sslEnv "q" shoesGeneralParams .sslError rfl).1,
   (c5_exception_classified_once generalCategoryCfg unclassifiedEnv "q" shoesGeneralParams
      (.other "boom") rfl).1⟩

/-- C6: the post-processing of a nested sitelink result sequence drops
the first element (when the sequence is non-empty) and then every
remaining element without a URL; a sequence of length 0 yields the
empty list, and `[R0(url=A), R1(url=None), R2(url=B)]` yields `[R2]`. -/
theorem c6_sitelink_postprocess :
    (∀ rs : List SResult, sitelinkPostprocess rs = (rs.drop 1).filter (fun r => r.url.isSome)) ∧
    sitelinkPostprocess [] = [] ∧
    sitelinkPostprocess [.mk (some "A") [], .mk none [], .mk (some "B") []] =
      [.mk (some "B") []] := by
  refine ⟨fun rs => ?_, rfl, rfl⟩
  cases rs <;> simp [sitelinkPostprocess]

/-- C7: for params built by `get_params` for an engine that opts into
`Accept-Language`, a locale with language and (truthy) territory yields
the two-tier preference header and a locale with only the language
yields the plain language tag. -/
theorem c7_accept_language (eng : Engine) (ua : String) (sq : SearchQuery)
    (base : Option BaseParams) (lang terr : String) (p : OnlineParams)
    (hflag : eng.send_accept_language_header = true)
    (hp : getParams eng ua sq base = some p) :
    (sq.locale = some { language := lang, territory := some terr } → terr ≠ "" →
      headerGet p.headers "Accept-Language" =
        some (lang ++ "-" ++ terr ++ "," ++ lang ++ ";q=0.9,*;q=0.5")) ∧
    (sq.locale = some { language := lang, territory := none } →
      headerGet p.headers "Accept-Language" = some lang) := by
  cases base with
  | none => simp [getParams] at hp
  | some b =>
    constructor
    · intro hloc hterr
      simp only [getParams, hloc, hflag, if_true] at hp
      cases hp
      simp [headerGet, headerSet, acceptLanguageValue, hterr, default_request_params]
    · intro hloc
      simp only [getParams, hloc, hflag, if_true] at hp
      cases hp
      simp [headerGet, headerSet, acceptLanguageValue, default_request_params]

/-- Witness for C7 at a concrete input: language `fr`, territory `CA`. -/
theorem c7_accept_language_witness :
    headerGet frCaParams.headers "Accept-Language" = some "fr-CA,fr;q=0.9,*;q=0.5" :=
  (c7_accept_language alEngine "UA" frCaQuery (some { query := "shoes", category := "general" })
      "fr" "CA" frCaParams rfl rfl).1 rfl (by decide)

/-- C8 counterexample: for the default params (auth not set, redirect
following not enabled by any engine), `_send_http_request` still passes
`auth` (as `None`) and `allow_redirects` (as `False`) — and empty
`headers`/`cookies` — to the transport, refuting "each of the options
... is passed to the transport only when it is explicitly present ...
when one is absent the transport option is omitted entirely". -/
theorem c8_absent_options_attached :
    (default_request_params "q" "general").auth = none ∧
    (requestArgs (default_request_params "q" "general")).auth = some none ∧
    (default_request_params "q" "general").allow_redirects = false ∧
    (requestArgs (default_request_params "q" "general")).allow_redirects = some false ∧
    (requestArgs (default_request_params "q" "general")).headers = some [] ∧
    (requestArgs (default_request_params "q" "general")).cookies = some [] :=
  ⟨rfl, rfl, rfl, rfl, rfl, rfl⟩

/-- C8 amended: only `verify` (passed exactly when not `None`) and
`max_redirects` (passed exactly when non-zero) are conditional, so only
their absence defers to the transport default; `headers`, `cookies`,
`auth`, `allow_redirects` and `raise_for_httperror` are always passed
with their current values. -/
theorem c8_option_attachment (p : OnlineParams) :
    (requestArgs p).headers = some p.headers ∧
    (requestArgs p).cookies = some p.cookies ∧
    (requestArgs p).auth = some p.auth ∧
    (requestArgs p).allow_redirects = some p.allow_redirects ∧
    (requestArgs p).raise_for_httperror = some p.raise_for_httperror ∧
    (requestArgs p).verify = p.verify ∧
    (requestArgs p).max_redirects =
      (if p.max_redirects ≠ 0 then some p.max_redirects else none) := by
  obtain ⟨m, hs, d, j, co, u, ck, ar, mr, smr, v, au, rf, q, c⟩ := p
  cases m <;> cases v <;> simp only [requestArgs] <;> split_ifs <;> simp_all

/-- The nested-search trace of `_get_sitelinks` always consists of
exactly the one search it itself performs, in the reserved category. -/
lemma getSitelinks_nested (env : Env) (params : OnlineParams) (t : String) :
    (getSitelinks env params t).2.1 =
      [{ query := params.query ++ " " ++ t, category := "sitelinks" }] := by
  simp only [getSitelinks]
  rcases hsb : searchBasic env (params.query ++ " " ++ t)
      { params with query := params.query ++ " " ++ t, category := "sitelinks" } with ⟨incs, res⟩
  rcases res with e | o
  · rfl
  · rcases o with _ | rs <;> rfl

/-- The site loop fires at most one nested search per configured site,
each in the reserved category. -/
lemma sitesLoop_nested (cfg : SitelinkCfg) (env : Env) (params : OnlineParams) :
    ∀ (sites : List Site) (rs : Option (List SResult)),
      (sitesLoop cfg env params sites rs).2.1.length ≤ sites.length ∧
      ∀ n ∈ (sitesLoop cfg env params sites rs).2.1, n.category = "sitelinks" := by
  intro sites
  induction sites with
  | nil => intro rs; simp [sitesLoop]
  | cons site sites ih =>
    intro rs
    simp only [sitesLoop]
    split
    · split
      · exact ⟨le_trans (ih rs).1 (Nat.le_succ _), (ih rs).2⟩
      · split
        · simp
        · rename_i results
          split
          · split
            · simp
            · rename_i term0
              split
              · rename_i e heq
                constructor <;> simp [getSitelinks_nested]
              · rename_i links heq
                constructor
                · simp only [getSitelinks_nested, List.length_append, List.length_cons,
                    List.length_nil, Nat.zero_add]
                  rw [Nat.add_comm]
                  exact Nat.succ_le_succ ((ih _).1)
                · intro n hm
                  simp [getSitelinks_nested] at hm
                  rcases hm with h2 | h2
                  · rw [h2]
                  · exact (ih _).2 n h2
          · exact ⟨le_trans (ih (some results)).1 (Nat.le_succ _), (ih (some results)).2⟩
    · exact ⟨le_trans (ih rs).1 (Nat.le_succ _), (ih rs).2⟩

/-- The whole `try` block performs at most one nested search per
configured site. -/
lemma tryBlock_nested (cfg : SitelinkCfg) (env : Env) (query : String) (params : OnlineParams) :
    (tryBlock cfg env query params).2.1.length ≤ cfg.force_sitelink_websites.length ∧
    ∀ n ∈ (tryBlock cfg env query params).2.1, n.category = "sitelinks" := by
  simp only [tryBlock]
  split
  · simp
  · split
    · exact ⟨(sitesLoop_nested cfg env params _ _).1, (sitesLoop_nested cfg env params _ _).2⟩
    · simp

/-- C9: a full search invocation performs at most one nested enrichment
search per configured site (for every configuration, category guard
included or not), every nested search runs in the reserved
`"sitelinks"` category, and each `_get_sitelinks` call performs exactly
one nested search — executed through `searchBasic` (request mutation,
dispatch, parse), which issues no nested searches of its own, so the
enrichment nesting depth is at most 1. -/
theorem c9_enrichment_bounded (cfg : SitelinkCfg) (env : Env) (query : String)
    (params : OnlineParams) :
    (searchRun cfg env query params).nested.length ≤ cfg.force_sitelink_websites.length ∧
    (∀ n ∈ (searchRun cfg env query params).nested, n.category = "sitelinks") ∧
    (∀ t, (getSitelinks env params t).2.1.length = 1) := by
  have h := tryBlock_nested cfg env query params
  have hn : (searchRun cfg env query params).nested = (tryBlock cfg env query params).2.1 := by
    simp only [searchRun]
    split
    · rename_i incs nested rs heq
      rw [heq]
    · rename_i incs nested e heq
      rw [heq]
  rw [hn]
  exact ⟨h.1, h.2, fun t => by rw [getSitelinks_nested]; rfl⟩

/-- Invariant of the `_clear_trackers` removal loop: scanning the
snapshot `s` while the live list is `acc ++ s` (with every element of
`acc` known not to match) either rewrites `parsed_url`/`url` from the
fully filtered list (when some snapshot element matches) or leaves them
untouched (when none does). -/
lemma clearLoop_filter :
    ∀ (s acc : List (String × String)) (pu : ParseResult) (url : Option String),
      (∀ a ∈ acc, matchesTracker a.1 = false) →
      clearLoop s (acc ++ s) pu url =
        (if s.any (fun nv => matchesTracker nv.1) then
          ({ pu with query := urlencode (acc ++ s.filter (fun nv => !matchesTracker nv.1)) },
            some (urlunparse
              { pu with query := urlencode (acc ++ s.filter (fun nv => !matchesTracker nv.1)) }))
        else (pu, url)) := by
  intro s
  induction s with
  | nil => intro acc pu url hacc; simp [clearLoop]
  | cons nv rest ih =>
    intro acc pu url hacc
    simp only [clearLoop]
    by_cases hm : matchesTracker nv.1 = true
    · rw [if_pos hm]
      have hnin : nv ∉ acc := by
        intro hin
        have h := hacc nv hin
        rw [hm] at h
        exact absurd h (by simp)
      have herase : (acc ++ nv :: rest).erase nv = acc ++ rest := by
        rw [List.erase_append_right _ hnin, List.erase_cons_head]
      rw [herase]
      rw [ih acc { pu with query := urlencode (acc ++ rest) }
            (some (urlunparse { pu with query := urlencode (acc ++ rest) })) hacc]
      by_cases hrest : rest.any (fun nv => matchesTracker nv.1) = true
      · simp [hrest, hm]
      · have hall : ∀ a ∈ rest, matchesTracker a.1 = false := by simpa using hrest
        have hfilter : rest.filter (fun nv => !matchesTracker nv.1) = rest := by
          apply List.filter_eq_self.mpr
          intro a ha
          simp [hall a ha]
        simp [hrest, hm, hfilter]
    · rw [if_neg hm]
      have hm2 : matchesTracker nv.1 = false := by simpa using hm
      rw [List.append_cons acc nv rest]
      rw [ih (acc ++ [nv]) pu url ?hacc2]
      case hacc2 =>
        intro a ha
        rcases List.mem_append.mp ha with h | h
        · exact hacc a h
        · rw [List.mem_singleton.mp h]
          exact hm2
      by_cases hrest : rest.any (fun nv => matchesTracker nv.1) = true
      · simp [hrest, hm2, List.append_assoc]
      · simp [hrest, hm2]

/-- C10 amended: `on_result` always returns true; a result without a
parsed URL is left completely unchanged; for a result with a parsed
URL, when no parameter of the PARSED query (`parse_qsl` of the query
string, which already drops blank-valued and `=`-less parameters)
matches a tracker pattern the result is unchanged, and otherwise
`parsed_url.query` is rewritten to the re-encoding of the parsed query
with exactly the tracker-matching parameters removed — the relative
order of the remaining parameters preserved — and `url` is rewritten
consistently to `urlunparse` of that parsed URL.  (The original claim's
"removes ... exactly those parameters whose name matches" fails at the
query-string level because the parse step itself drops blank-valued
parameters; see the counterexample.) -/
theorem c10_clear_trackers_rewrite (r : TResult) :
    (on_result r).2 = true ∧
    (r.parsed_url = none → clearTrackers r = r) ∧
    (∀ pu, r.parsed_url = some pu →
      clearTrackers r =
        (if (parseQsl pu.query).any (fun nv => matchesTracker nv.1) then
          TResult.mk
            (some (urlunparse { pu with
              query := urlencode ((parseQsl pu.query).filter (fun nv => !matchesTracker nv.1)) }))
            (some { pu with
              query := urlencode ((parseQsl pu.query).filter (fun nv => !matchesTracker nv.1)) })
            r.sitelinks
        else r)) := by
  refine ⟨rfl, ?_, ?_⟩
  · intro h
    cases r with
    | mk u pup sl =>
      simp only [TResult.parsed_url] at h
      subst h
      rfl
  · intro pu h
    cases r with
    | mk u pup sl =>
      simp only [TResult.parsed_url] at h
      subst h
      simp only [clearTrackers, TResult.url, TResult.sitelinks, TResult.parsed_url]
      have hinv := clearLoop_filter (parseQsl pu.query) [] pu u (by intro a ha; cases ha)
      rw [List.nil_append] at hinv
      rw [hinv]
      by_cases hany : (parseQsl pu.query).any (fun nv => matchesTracker nv.1) = true
      · simp [hany]
      · simp [hany]

/-- C10 counterexample: in the query `a=&utm_x=1`, the parameter `a`
matches no tracker pattern, yet after tracker removal the rewritten
query string is empty — the blank-valued `a=` was removed as well
(dropped by `parse_qsl`), refuting "removes from the URL's query string
exactly those parameters whose name matches one of the fixed tracker
patterns". -/
theorem c10_blank_value_param_removed :
    matchesTracker "a" = false ∧
    (clearTrackers blankParamResult).parsed_url = some { blankParamPu with query := "" } ∧
    (clearTrackers blankParamResult).url = some "https://example.com/" :=
  ⟨by decide, by decide, by decide⟩

/-- Witness for C10 at a concrete input: `utm_a=1&b=2` keeps exactly
`b=2` and the URL is rewritten consistently. -/
theorem c10_clear_trackers_rewrite_witness :
    (clearTrackers trackedResult).url = some "https://example.com/?b=2" ∧
    (clearTrackers trackedResult).parsed_url = some { trackedPu with query := "b=2" } := by
  have h := (c10_clear_trackers_rewrite trackedResult).2.2 trackedPu rfl
  rw [h]
  exact ⟨by decide, by decide⟩
